import Mathlib

/-!
Shallow embedding of the `specifications` Go library and its PostgreSQL
visitor (`specifications.go`, `postgres/visitor.go`).

Values carried by leaf specifications are modelled by a type parameter `α`
(Go's `interface{}`); Go strings are modelled by `String` / `List Char`;
the field-translation map is an association list with `List.lookup`.
-/

variable {α : Type}

/-- Number of generic placeholder characters (`'?'`) in a character list. -/
def countQ : List Char → Nat
  | [] => 0
  | c :: rest => (if c = '?' then 1 else 0) + countQ rest

/-- `true` when a string contains no generic placeholder character. -/
def noQ (s : String) : Bool := countQ s.data == 0

/-- Go's `strings.Join`: concatenate with a separator between elements. -/
def joinSep (sep : String) : List String → String
  | [] => ""
  | [s] => s
  | s :: rest => s ++ sep ++ joinSep sep rest

mutual

/-- The specification tree (`Specification` interface plus the concrete
spec structs of `specifications.go`), one constructor per factory. -/
inductive Specification (α : Type) where
  | Equal (field : String) (value : α)
  | NotEqual (field : String) (value : α)
  | In (field : String) (values : List α)
  | And (specs : SpecList α)
  | Or (specs : SpecList α)
  | Limit (limit : Int)
  | OrderBy (field : String) (direction : String)
  | GreaterThan (field : String) (value : α)
  | LowerThan (field : String) (value : α)
  | Like (field : String) (value : α)
  | GreaterThanOrEqual (field : String) (value : α)
  | LowerThanOrEqual (field : String) (value : α)
  | Offset (offset : Int)

/-- Ordered sequence of child specifications (a Go slice of specs). -/
inductive SpecList (α : Type) where
  | nil
  | cons (s : Specification α) (rest : SpecList α)

end

/-- The accumulator state of `postgres.Visitor`. -/
structure Visitor (α : Type) where
  conditions : List String
  args : List α
  fieldMap : List (String × String)
  orderClauses : List String
  limit : Int
  offset : Int

/-- `postgres.NewVisitor`. -/
def NewVisitor (fieldMap : List (String × String)) : Visitor α :=
  { conditions := []
  , args := []
  , fieldMap := fieldMap
  , orderClauses := []
  , limit := 0
  , offset := 0 }

/-- Field translation through a map with identity fallback (the body of
`Visitor.mapField`, factored over the raw map). -/
def lookupField (m : List (String × String)) (domainField : String) : String :=
  match m.lookup domainField with
  | some dbField => dbField
  | none => domainField

/-- `Visitor.mapField`. -/
def mapField (v : Visitor α) (domainField : String) : String :=
  lookupField v.fieldMap domainField

/-- `Visitor.VisitEqual`. -/
def VisitEqual (v : Visitor α) (field : String) (value : α) : Visitor α :=
  { v with conditions := v.conditions ++ [mapField v field ++ " = ?"]
         , args := v.args ++ [value] }

/-- `Visitor.VisitNotEqual`. -/
def VisitNotEqual (v : Visitor α) (field : String) (value : α) : Visitor α :=
  { v with conditions := v.conditions ++ [mapField v field ++ " <> ?"]
         , args := v.args ++ [value] }

/-- `Visitor.VisitGreaterThan`. -/
def VisitGreaterThan (v : Visitor α) (field : String) (value : α) : Visitor α :=
  { v with conditions := v.conditions ++ [mapField v field ++ " > ?"]
         , args := v.args ++ [value] }

/-- `Visitor.VisitLowerThan`. -/
def VisitLowerThan (v : Visitor α) (field : String) (value : α) : Visitor α :=
  { v with conditions := v.conditions ++ [mapField v field ++ " < ?"]
         , args := v.args ++ [value] }

/-- `Visitor.VisitGreaterThanOrEqual`. -/
def VisitGreaterThanOrEqual (v : Visitor α) (field : String) (value : α) : Visitor α :=
  { v with conditions := v.conditions ++ [mapField v field ++ " >= ?"]
         , args := v.args ++ [value] }

/-- `Visitor.VisitLowerThanOrEqual`. -/
def VisitLowerThanOrEqual (v : Visitor α) (field : String) (value : α) : Visitor α :=
  { v with conditions := v.conditions ++ [mapField v field ++ " <= ?"]
         , args := v.args ++ [value] }

/-- `Visitor.VisitLike`. -/
def VisitLike (v : Visitor α) (field : String) (value : α) : Visitor α :=
  { v with conditions := v.conditions ++ [mapField v field ++ " LIKE ?"]
         , args := v.args ++ [value] }

/-- `Visitor.VisitIn`: empty value sequence emits the always-false `1=0`
fragment without touching the arguments. -/
def VisitIn (v : Visitor α) (field : String) (values : List α) : Visitor α :=
  let dbField := mapField v field
  if values.length = 0 then
    { v with conditions := v.conditions ++ ["1=0"] }
  else
    { v with conditions := v.conditions ++
        [dbField ++ " IN (" ++ joinSep ", " (values.map (fun _ => "?")) ++ ")"]
           , args := v.args ++ values }

/-- `Visitor.VisitLimit`: unconditional overwrite. -/
def VisitLimit (v : Visitor α) (limit : Int) : Visitor α :=
  { v with limit := limit }

/-- `Visitor.VisitOffset`: unconditional overwrite. -/
def VisitOffset (v : Visitor α) (offset : Int) : Visitor α :=
  { v with offset := offset }

/-- `Visitor.VisitOrder`: append one `"<storage-field> <direction>"` clause. -/
def VisitOrder (v : Visitor α) (field : String) (direction : String) : Visitor α :=
  { v with orderClauses := v.orderClauses ++ [mapField v field ++ " " ++ direction] }

/-- The merge at the end of `Visitor.VisitAnd` (lines 65-78): conditions and
arguments only when the nested accumulator produced conditions; order
clauses always appended; strictly positive limit/offset override. -/
def mergeAnd (v sub : Visitor α) : Visitor α :=
  { conditions :=
      if 0 < sub.conditions.length then
        v.conditions ++ ["(" ++ joinSep " AND " sub.conditions ++ ")"]
      else v.conditions
  , args := if 0 < sub.conditions.length then v.args ++ sub.args else v.args
  , fieldMap := v.fieldMap
  , orderClauses := v.orderClauses ++ sub.orderClauses
  , limit := if 0 < sub.limit then sub.limit else v.limit
  , offset := if 0 < sub.offset then sub.offset else v.offset }

/-- The merge at the end of `Visitor.VisitOr` (lines 106-119): the OR-joined
parts become one fragment when non-empty, together with the collected
arguments; order clauses always appended; positive limit/offset override. -/
def mergeOr (v sub : Visitor α) (orParts : List String) : Visitor α :=
  { conditions :=
      if 0 < orParts.length then
        v.conditions ++ ["(" ++ joinSep " OR " orParts ++ ")"]
      else v.conditions
  , args := if 0 < orParts.length then v.args ++ sub.args else v.args
  , fieldMap := v.fieldMap
  , orderClauses := v.orderClauses ++ sub.orderClauses
  , limit := if 0 < sub.limit then sub.limit else v.limit
  , offset := if 0 < sub.offset then sub.offset else v.offset }

/-- One iteration of the `VisitOr` loop (lines 90-103), acting on the
shared `subVisitor` given the child's freshly compiled `temp` accumulator. -/
def orStep (sub temp : Visitor α) : Visitor α :=
  { conditions := sub.conditions
  , args := if 0 < temp.conditions.length then sub.args ++ temp.args else sub.args
  , fieldMap := sub.fieldMap
  , orderClauses := sub.orderClauses ++ temp.orderClauses
  , limit := if 0 < temp.limit then temp.limit else sub.limit
  , offset := if 0 < temp.offset then temp.offset else sub.offset }

/-- The `orParts` update of one `VisitOr` loop iteration (lines 90-93). -/
def orPartsStep (orParts : List String) (temp : Visitor α) : List String :=
  if 0 < temp.conditions.length then
    orParts ++ ["(" ++ joinSep " AND " temp.conditions ++ ")"]
  else orParts

mutual

/-- `Specification.Accept`: dispatch to the visitor method of the node's
kind (the `Accept` methods of `specifications.go` combined with the
`Visit*` methods of `postgres/visitor.go`). -/
def Accept : Specification α → Visitor α → Visitor α
  | .Equal field value, v => VisitEqual v field value
  | .NotEqual field value, v => VisitNotEqual v field value
  | .In field values, v => VisitIn v field values
  | .And specs, v => mergeAnd v (acceptList specs (NewVisitor v.fieldMap))
  | .Or specs, v =>
      let r := orLoop specs (NewVisitor v.fieldMap) []
      mergeOr v r.1 r.2
  | .Limit n, v => VisitLimit v n
  | .OrderBy field direction, v => VisitOrder v field direction
  | .GreaterThan field value, v => VisitGreaterThan v field value
  | .LowerThan field value, v => VisitLowerThan v field value
  | .Like field value, v => VisitLike v field value
  | .GreaterThanOrEqual field value, v => VisitGreaterThanOrEqual v field value
  | .LowerThanOrEqual field value, v => VisitLowerThanOrEqual v field value
  | .Offset n, v => VisitOffset v n

/-- The loop of `Visitor.VisitAnd` (lines 61-63): visit every child into
the shared nested accumulator. -/
def acceptList : SpecList α → Visitor α → Visitor α
  | .nil, v => v
  | .cons s rest, v => acceptList rest (Accept s v)

/-- The loop of `Visitor.VisitOr` (lines 85-104): each child compiles into
its own fresh accumulator; non-empty condition sets become parenthesized
OR parts; arguments, order clauses, and positive limit/offset collect into
the shared `subVisitor`. -/
def orLoop : SpecList α → Visitor α → List String → Visitor α × List String
  | .nil, sub, orParts => (sub, orParts)
  | .cons s rest, sub, orParts =>
      let temp := Accept s (NewVisitor sub.fieldMap)
      orLoop rest (orStep sub temp) (orPartsStep orParts temp)

end

/-- `Visitor.VisitAnd`. -/
def VisitAnd (v : Visitor α) (specs : SpecList α) : Visitor α :=
  mergeAnd v (acceptList specs (NewVisitor v.fieldMap))

/-- `Visitor.VisitOr`. -/
def VisitOr (v : Visitor α) (specs : SpecList α) : Visitor α :=
  let r := orLoop specs (NewVisitor v.fieldMap) []
  mergeOr v r.1 r.2

/-- The placeholder-renumbering scan of `BuildQuery` (lines 177-185): each
`'?'` becomes `'$'` followed by the decimal of the running index. -/
def renumber : List Char → Nat → List Char
  | [], _ => []
  | c :: rest, argIndex =>
      if c = '?' then '$' :: (toString argIndex).data ++ renumber rest (argIndex + 1)
      else c :: renumber rest argIndex

/-- `Visitor.BuildQuery`. -/
def BuildQuery (v : Visitor α) (baseQuery : String) : String × List α :=
  let query := baseQuery
  let query :=
    if 0 < v.conditions.length then
      let fullCondition := joinSep " AND " v.conditions
      query ++ " WHERE " ++ String.mk (renumber fullCondition.data 1)
    else query
  let query :=
    if 0 < v.orderClauses.length then
      query ++ " ORDER BY " ++ joinSep ", " v.orderClauses
    else query
  let query := if 0 < v.limit then query ++ " LIMIT " ++ toString v.limit else query
  let query := if 0 < v.offset then query ++ " OFFSET " ++ toString v.offset else query
  (query, v.args)

/-- Token view of renumbered condition text: literal characters and
positional markers `$k`. -/
inductive QTok where
  | lit (c : Char)
  | mark (k : Nat)

/-- Rendering of one token back to characters. -/
def renderTok : QTok → List Char
  | .lit c => [c]
  | .mark k => '$' :: (toString k).data

/-- Rendering of a token stream. -/
def renderToks : List QTok → List Char
  | [] => []
  | t :: ts => renderTok t ++ renderToks ts

/-- Tokenization of condition text: each `'?'` becomes a marker carrying
the running index, every other character a literal. -/
def tokenize : List Char → Nat → List QTok
  | [], _ => []
  | c :: rest, k =>
      if c = '?' then .mark k :: tokenize rest (k + 1)
      else .lit c :: tokenize rest k

/-- The marker indices of a token stream, in order. -/
def markersOf (ts : List QTok) : List Nat :=
  ts.filterMap fun t => match t with | .mark k => some k | .lit _ => none

/-- Total placeholder count over a list of condition fragments. -/
def sumQ (l : List String) : Nat := (l.map (fun s => countQ s.data)).sum

/-- Total placeholder count over a visitor's accumulated conditions. -/
def condsQ (v : Visitor α) : Nat := sumQ v.conditions

mutual

/-- Number of value-producing leaf payloads of a tree: one per
comparison/Like leaf, one per element of each `In`. -/
def valueLeaves : Specification α → Nat
  | .Equal _ _ => 1
  | .NotEqual _ _ => 1
  | .In _ values => values.length
  | .And specs => valueLeavesList specs
  | .Or specs => valueLeavesList specs
  | .Limit _ => 0
  | .OrderBy _ _ => 0
  | .GreaterThan _ _ => 1
  | .LowerThan _ _ => 1
  | .Like _ _ => 1
  | .GreaterThanOrEqual _ _ => 1
  | .LowerThanOrEqual _ _ => 1
  | .Offset _ => 0

/-- Sum of `valueLeaves` over a sequence. -/
def valueLeavesList : SpecList α → Nat
  | .nil => 0
  | .cons s rest => valueLeaves s + valueLeavesList rest

end

mutual

/-- Every condition-emitting field of the tree, translated through the
map, is free of the generic placeholder character. -/
def fieldsOk (m : List (String × String)) : Specification α → Bool
  | .Equal field _ => noQ (lookupField m field)
  | .NotEqual field _ => noQ (lookupField m field)
  | .In field _ => noQ (lookupField m field)
  | .And specs => fieldsOkList m specs
  | .Or specs => fieldsOkList m specs
  | .Limit _ => true
  | .OrderBy _ _ => true
  | .GreaterThan field _ => noQ (lookupField m field)
  | .LowerThan field _ => noQ (lookupField m field)
  | .Like field _ => noQ (lookupField m field)
  | .GreaterThanOrEqual field _ => noQ (lookupField m field)
  | .LowerThanOrEqual field _ => noQ (lookupField m field)
  | .Offset _ => true

/-- `fieldsOk` over a sequence. -/
def fieldsOkList (m : List (String × String)) : SpecList α → Bool
  | .nil => true
  | .cons s rest => fieldsOk m s && fieldsOkList m rest

end

theorem countQ_append (a b : List Char) : countQ (a ++ b) = countQ a + countQ b := by
  induction a with
  | nil => simp [countQ]
  | cons c rest ih => simp [countQ, ih]; omega

theorem renumber_append (a b : List Char) (k : Nat) :
    renumber (a ++ b) k = renumber a k ++ renumber b (k + countQ a) := by
  induction a generalizing k with
  | nil => simp [renumber, countQ]
  | cons c rest ih =>
      by_cases hc : c = '?'
      · simp [renumber, countQ, hc, ih]
        rw [Nat.add_assoc, Nat.add_comm 1 (countQ rest)]
      · simp [renumber, countQ, hc, ih]

theorem renumber_noQ (a : List Char) (k : Nat) (h : countQ a = 0) : renumber a k = a := by
  induction a generalizing k with
  | nil => simp [renumber]
  | cons c rest ih =>
      by_cases hc : c = '?'
      · subst hc; simp [countQ] at h
      · simp [countQ, hc] at h
        simp [renumber, hc, ih _ h]

theorem markersOf_nil : markersOf [] = [] := rfl

theorem markersOf_cons_mark (k : Nat) (ts : List QTok) :
    markersOf (.mark k :: ts) = k :: markersOf ts := by simp [markersOf]

theorem markersOf_cons_lit (c : Char) (ts : List QTok) :
    markersOf (.lit c :: ts) = markersOf ts := by simp [markersOf]

theorem tokenize_markers (cs : List Char) (k : Nat) :
    markersOf (tokenize cs k) = List.range' k (countQ cs) := by
  induction cs generalizing k with
  | nil => simp [tokenize, countQ, markersOf]
  | cons c rest ih =>
      by_cases hc : c = '?'
      · have hcq : countQ (c :: rest) = countQ rest + 1 := by
          simp [countQ, hc]; omega
        rw [hcq, List.range'_succ]
        simp only [tokenize, if_pos hc, markersOf_cons_mark, ih]
      · have hcq : countQ (c :: rest) = countQ rest := by simp [countQ, hc]
        rw [hcq]
        simp only [tokenize, if_neg hc, markersOf_cons_lit, ih]

theorem renumber_tokens (cs : List Char) (k : Nat) :
    renumber cs k = renderToks (tokenize cs k) := by
  induction cs generalizing k with
  | nil => simp [renumber, tokenize, renderToks]
  | cons c rest ih =>
      by_cases hc : c = '?'
      · simp [renumber, tokenize, hc, renderToks, renderTok, ih]
      · simp [renumber, tokenize, hc, renderToks, renderTok, ih]

theorem sumQ_append (a b : List String) : sumQ (a ++ b) = sumQ a + sumQ b := by
  simp [sumQ]

theorem sumQ_nil : sumQ ([] : List String) = 0 := rfl

theorem sumQ_cons (s : String) (l : List String) :
    sumQ (s :: l) = countQ s.data + sumQ l := by simp [sumQ]

theorem joinSep_countQ (sep : String) (l : List String) (hsep : countQ sep.data = 0) :
    countQ (joinSep sep l).data = sumQ l := by
  induction l with
  | nil => simp [joinSep, sumQ]; rfl
  | cons s rest ih =>
      cases rest with
      | nil => simp [joinSep, sumQ]
      | cons t rest2 =>
          simp only [joinSep] at ih ⊢
          rw [String.data_append, String.data_append, countQ_append, countQ_append,
            hsep, ih]
          simp only [sumQ_cons]
          omega

theorem sumQ_qmarks (xs : List α) : sumQ (xs.map fun _ => "?") = xs.length := by
  induction xs with
  | nil => simp [sumQ]
  | cons x rest ih =>
      rw [List.map_cons, sumQ_cons, ih, List.length_cons]
      have h1 : countQ ("?".data) = 1 := by decide
      omega

theorem noQ_eq (s : String) : noQ s = true ↔ countQ s.data = 0 := by simp [noQ]

theorem condsQ_eq (v : Visitor α) : condsQ v = sumQ v.conditions := rfl

theorem countQ_paren_join (sep : String) (l : List String) (hsep : countQ sep.data = 0) :
    countQ ("(" ++ joinSep sep l ++ ")").data = sumQ l := by
  have h1 : countQ ("(" : String).data = 0 := by decide
  have h2 : countQ (")" : String).data = 0 := by decide
  rw [String.data_append, String.data_append, countQ_append, countQ_append, h1,
    joinSep_countQ _ _ hsep, h2]
  omega

theorem mergeAnd_inv (v sub : Visitor α)
    (hP : condsQ v = v.args.length) (hsub : condsQ sub = sub.args.length) :
    condsQ (mergeAnd v sub) = (mergeAnd v sub).args.length
      ∧ (mergeAnd v sub).args.length = v.args.length + sub.args.length
      ∧ (mergeAnd v sub).fieldMap = v.fieldMap := by
  have hAnd : countQ (" AND " : String).data = 0 := by decide
  have hc : (mergeAnd v sub).conditions
      = if 0 < sub.conditions.length then
          v.conditions ++ ["(" ++ joinSep " AND " sub.conditions ++ ")"]
        else v.conditions := rfl
  have ha : (mergeAnd v sub).args
      = if 0 < sub.conditions.length then v.args ++ sub.args else v.args := rfl
  by_cases h : 0 < sub.conditions.length
  · rw [if_pos h] at hc ha
    refine ⟨?_, ?_, rfl⟩
    · rw [condsQ_eq, hc, ha, sumQ_append, sumQ_cons, sumQ_nil,
        countQ_paren_join _ _ hAnd, List.length_append]
      rw [condsQ_eq] at hP hsub
      omega
    · rw [ha, List.length_append]
  · rw [if_neg h] at hc ha
    have hnil : sub.conditions = [] := by
      cases hcs : sub.conditions with
      | nil => rfl
      | cons a b => rw [hcs] at h; simp at h
    have hz : condsQ sub = 0 := by rw [condsQ_eq, hnil]; rfl
    have hz2 : sub.args.length = 0 := by omega
    refine ⟨?_, ?_, rfl⟩
    · rw [condsQ_eq, hc, ha]; exact hP
    · rw [ha]; omega

theorem mergeOr_inv (v sub : Visitor α) (parts : List String)
    (hP : condsQ v = v.args.length) (hparts : sumQ parts = sub.args.length) :
    condsQ (mergeOr v sub parts) = (mergeOr v sub parts).args.length
      ∧ (mergeOr v sub parts).args.length = v.args.length + sub.args.length
      ∧ (mergeOr v sub parts).fieldMap = v.fieldMap := by
  have hOr : countQ (" OR " : String).data = 0 := by decide
  have hc : (mergeOr v sub parts).conditions
      = if 0 < parts.length then
          v.conditions ++ ["(" ++ joinSep " OR " parts ++ ")"]
        else v.conditions := rfl
  have ha : (mergeOr v sub parts).args
      = if 0 < parts.length then v.args ++ sub.args else v.args := rfl
  by_cases h : 0 < parts.length
  · rw [if_pos h] at hc ha
    refine ⟨?_, ?_, rfl⟩
    · rw [condsQ_eq, hc, ha, sumQ_append, sumQ_cons, sumQ_nil,
        countQ_paren_join _ _ hOr, List.length_append]
      rw [condsQ_eq] at hP
      omega
    · rw [ha, List.length_append]
  · rw [if_neg h] at hc ha
    have hnil : parts = [] := by
      cases hcs : parts with
      | nil => rfl
      | cons a b => rw [hcs] at h; simp at h
    have hz : sumQ parts = 0 := by rw [hnil]; rfl
    have hz2 : sub.args.length = 0 := by omega
    refine ⟨?_, ?_, rfl⟩
    · rw [condsQ_eq, hc, ha]; exact hP
    · rw [ha]; omega

theorem leaf_frag_q (m : List (String × String)) (f : String) (op : String)
    (hf : noQ (lookupField m f) = true) (hop : countQ op.data = 1) :
    countQ (lookupField m f ++ op).data = 1 := by
  rw [String.data_append, countQ_append, (noQ_eq _).mp hf, hop]

theorem in_frag_q (m : List (String × String)) (f : String) (values : List α)
    (hf : noQ (lookupField m f) = true) :
    countQ ((lookupField m f ++ " IN ("
      ++ joinSep ", " (values.map (fun _ => "?")) ++ ")")).data = values.length := by
  have h1 : countQ (" IN (" : String).data = 0 := by decide
  have h2 : countQ (")" : String).data = 0 := by decide
  have h3 : countQ (", " : String).data = 0 := by decide
  rw [String.data_append, String.data_append, String.data_append,
    countQ_append, countQ_append, countQ_append, (noQ_eq _).mp hf, h1, h2,
    joinSep_countQ _ _ h3, sumQ_qmarks]
  omega

theorem pushN_inv (v v2 : Visitor α) (frag : String) (xs : List α)
    (h2 : v2 = { v with conditions := v.conditions ++ [frag], args := v.args ++ xs })
    (hfrag : countQ frag.data = xs.length) (hP : condsQ v = v.args.length) :
    condsQ v2 = v2.args.length
      ∧ v2.args.length = v.args.length + xs.length
      ∧ v2.fieldMap = v.fieldMap := by
  subst h2
  refine ⟨?_, ?_, rfl⟩
  · show sumQ (v.conditions ++ [frag]) = (v.args ++ xs).length
    rw [sumQ_append, sumQ_cons, sumQ_nil, List.length_append, hfrag]
    rw [condsQ_eq] at hP
    omega
  · show (v.args ++ xs).length = _
    rw [List.length_append]

mutual

theorem Accept_inv (s : Specification α) (v : Visitor α)
    (hf : fieldsOk v.fieldMap s = true) (hP : condsQ v = v.args.length) :
    condsQ (Accept s v) = (Accept s v).args.length
      ∧ (Accept s v).args.length = v.args.length + valueLeaves s
      ∧ (Accept s v).fieldMap = v.fieldMap := by
  match s with
  | .Equal f x =>
      simp only [fieldsOk] at hf
      exact pushN_inv v _ _ [x] rfl (leaf_frag_q _ _ _ hf (by decide)) hP
  | .NotEqual f x =>
      simp only [fieldsOk] at hf
      exact pushN_inv v _ _ [x] rfl (leaf_frag_q _ _ _ hf (by decide)) hP
  | .GreaterThan f x =>
      simp only [fieldsOk] at hf
      exact pushN_inv v _ _ [x] rfl (leaf_frag_q _ _ _ hf (by decide)) hP
  | .LowerThan f x =>
      simp only [fieldsOk] at hf
      exact pushN_inv v _ _ [x] rfl (leaf_frag_q _ _ _ hf (by decide)) hP
  | .Like f x =>
      simp only [fieldsOk] at hf
      exact pushN_inv v _ _ [x] rfl (leaf_frag_q _ _ _ hf (by decide)) hP
  | .GreaterThanOrEqual f x =>
      simp only [fieldsOk] at hf
      exact pushN_inv v _ _ [x] rfl (leaf_frag_q _ _ _ hf (by decide)) hP
  | .LowerThanOrEqual f x =>
      simp only [fieldsOk] at hf
      exact pushN_inv v _ _ [x] rfl (leaf_frag_q _ _ _ hf (by decide)) hP
  | .In f values =>
      simp only [fieldsOk] at hf
      by_cases hv : values.length = 0
      · have he : Accept (.In f values) v
            = { v with conditions := v.conditions ++ ["1=0"] } := by
          simp only [Accept, VisitIn, if_pos hv]
        rw [he]
        refine ⟨?_, ?_, rfl⟩
        · show sumQ (v.conditions ++ ["1=0"]) = v.args.length
          rw [sumQ_append, sumQ_cons, sumQ_nil]
          have h0 : countQ ("1=0" : String).data = 0 := by decide
          rw [condsQ_eq] at hP
          omega
        · show v.args.length = v.args.length + valueLeaves (.In f values)
          have : valueLeaves (Specification.In f values) = values.length := rfl
          omega
      · have he : Accept (.In f values) v
            = { v with conditions := v.conditions ++
                  [mapField v f ++ " IN ("
                    ++ joinSep ", " (values.map (fun _ => "?")) ++ ")"]
                     , args := v.args ++ values } := by
          simp only [Accept, VisitIn, if_neg hv]
        rw [he]
        exact pushN_inv v _ _ values rfl (in_frag_q _ _ _ hf) hP
  | .Limit n => exact ⟨hP, rfl, rfl⟩
  | .Offset n => exact ⟨hP, rfl, rfl⟩
  | .OrderBy f d => exact ⟨hP, rfl, rfl⟩
  | .And specs =>
      simp only [fieldsOk] at hf
      have hsub := acceptList_inv specs (NewVisitor v.fieldMap) hf rfl
      have hm := mergeAnd_inv v (acceptList specs (NewVisitor v.fieldMap)) hP hsub.1
      refine ⟨hm.1, ?_, hm.2.2⟩
      have hs21 : (acceptList specs (NewVisitor v.fieldMap)).args.length
          = valueLeavesList specs := by
        have h := hsub.2.1
        simpa [NewVisitor] using h
      show (mergeAnd v (acceptList specs (NewVisitor v.fieldMap))).args.length
        = v.args.length + valueLeavesList specs
      rw [hm.2.1, hs21]
  | .Or specs =>
      simp only [fieldsOk] at hf
      have hor := orLoop_inv specs (NewVisitor v.fieldMap) [] hf
      have ha : (orLoop specs (NewVisitor v.fieldMap) []).1.args.length
          = valueLeavesList specs := by
        have h := hor.2.1
        simpa [NewVisitor] using h
      have hp : sumQ (orLoop specs (NewVisitor v.fieldMap) []).2
          = valueLeavesList specs := by
        have h := hor.2.2
        simpa [sumQ_nil] using h
      have hm := mergeOr_inv v (orLoop specs (NewVisitor v.fieldMap) []).1
        (orLoop specs (NewVisitor v.fieldMap) []).2 hP (by rw [hp, ha])
      refine ⟨hm.1, ?_, hm.2.2⟩
      show (mergeOr v (orLoop specs (NewVisitor v.fieldMap) []).1
        (orLoop specs (NewVisitor v.fieldMap) []).2).args.length
        = v.args.length + valueLeavesList specs
      rw [hm.2.1, ha]

theorem acceptList_inv (l : SpecList α) (v : Visitor α)
    (hf : fieldsOkList v.fieldMap l = true) (hP : condsQ v = v.args.length) :
    condsQ (acceptList l v) = (acceptList l v).args.length
      ∧ (acceptList l v).args.length = v.args.length + valueLeavesList l
      ∧ (acceptList l v).fieldMap = v.fieldMap := by
  match l with
  | .nil => exact ⟨hP, rfl, rfl⟩
  | .cons s rest =>
      simp only [fieldsOkList, Bool.and_eq_true] at hf
      have h1 := Accept_inv s v hf.1 hP
      have hf2 : fieldsOkList (Accept s v).fieldMap rest = true := by
        rw [h1.2.2]; exact hf.2
      have h2 := acceptList_inv rest (Accept s v) hf2 h1.1
      have he : acceptList (.cons s rest) v = acceptList rest (Accept s v) := rfl
      rw [he]
      refine ⟨h2.1, ?_, by rw [h2.2.2, h1.2.2]⟩
      show (acceptList rest (Accept s v)).args.length
        = v.args.length + (valueLeaves s + valueLeavesList rest)
      rw [h2.2.1, h1.2.1]
      omega

theorem orLoop_inv (l : SpecList α) (sub : Visitor α) (parts : List String)
    (hf : fieldsOkList sub.fieldMap l = true) :
    (orLoop l sub parts).1.fieldMap = sub.fieldMap
      ∧ (orLoop l sub parts).1.args.length = sub.args.length + valueLeavesList l
      ∧ sumQ (orLoop l sub parts).2 = sumQ parts + valueLeavesList l := by
  match l with
  | .nil => exact ⟨rfl, rfl, rfl⟩
  | .cons s rest =>
      simp only [fieldsOkList, Bool.and_eq_true] at hf
      have htemp := Accept_inv s (NewVisitor sub.fieldMap) hf.1 rfl
      have hta : (Accept s (NewVisitor sub.fieldMap)).args.length = valueLeaves s := by
        have h := htemp.2.1
        simpa [NewVisitor] using h
      have hz : ¬ 0 < (Accept s (NewVisitor sub.fieldMap)).conditions.length →
          valueLeaves s = 0 := by
        intro h
        have hnil : (Accept s (NewVisitor sub.fieldMap)).conditions = [] := by
          cases hcs : (Accept s (NewVisitor sub.fieldMap)).conditions with
          | nil => rfl
          | cons a b => rw [hcs] at h; simp at h
        have h1 := htemp.1
        rw [condsQ_eq, hnil, sumQ_nil, hta] at h1
        omega
      have hsa : (orStep sub (Accept s (NewVisitor sub.fieldMap))).args.length
          = sub.args.length + valueLeaves s := by
        show (if 0 < (Accept s (NewVisitor sub.fieldMap)).conditions.length
          then sub.args ++ (Accept s (NewVisitor sub.fieldMap)).args
          else sub.args).length = sub.args.length + valueLeaves s
        by_cases h : 0 < (Accept s (NewVisitor sub.fieldMap)).conditions.length
        · rw [if_pos h, List.length_append, hta]
        · rw [if_neg h, hz h]
          omega
      have hpa : sumQ (orPartsStep parts (Accept s (NewVisitor sub.fieldMap)))
          = sumQ parts + valueLeaves s := by
        show sumQ (if 0 < (Accept s (NewVisitor sub.fieldMap)).conditions.length
          then parts ++ ["(" ++ joinSep " AND "
            (Accept s (NewVisitor sub.fieldMap)).conditions ++ ")"]
          else parts) = sumQ parts + valueLeaves s
        by_cases h : 0 < (Accept s (NewVisitor sub.fieldMap)).conditions.length
        · rw [if_pos h, sumQ_append, sumQ_cons, sumQ_nil,
            countQ_paren_join _ _ (by decide)]
          have h1 := htemp.1
          rw [condsQ_eq, hta] at h1
          omega
        · rw [if_neg h, hz h]
          omega
      have step : orLoop (.cons s rest) sub parts
          = orLoop rest (orStep sub (Accept s (NewVisitor sub.fieldMap)))
              (orPartsStep parts (Accept s (NewVisitor sub.fieldMap))) := rfl
      rw [step]
      have hrec := orLoop_inv rest (orStep sub (Accept s (NewVisitor sub.fieldMap)))
        (orPartsStep parts (Accept s (NewVisitor sub.fieldMap))) hf.2
      refine ⟨hrec.1, ?_, ?_⟩
      · rw [hrec.2.1, hsa]
        show sub.args.length + valueLeaves s + valueLeavesList rest
          = sub.args.length + (valueLeaves s + valueLeavesList rest)
        omega
      · rw [hrec.2.2, hpa]
        show sumQ parts + valueLeaves s + valueLeavesList rest
          = sumQ parts + (valueLeaves s + valueLeavesList rest)
        omega

end

/-- The WHERE segment that `BuildQuery` appends, at character level. -/
def wherePartOf (v : Visitor α) : List Char :=
  if 0 < v.conditions.length then
    (" WHERE " : String).data ++ renumber (joinSep " AND " v.conditions).data 1
  else []

/-- The ORDER BY segment that `BuildQuery` appends, at character level. -/
def orderPartOf (v : Visitor α) : List Char :=
  if 0 < v.orderClauses.length then
    (" ORDER BY " ++ joinSep ", " v.orderClauses).data
  else []

/-- The LIMIT segment that `BuildQuery` appends, at character level. -/
def limitPartOf (v : Visitor α) : List Char :=
  if 0 < v.limit then (" LIMIT " ++ toString v.limit).data else []

/-- The OFFSET segment that `BuildQuery` appends, at character level. -/
def offsetPartOf (v : Visitor α) : List Char :=
  if 0 < v.offset then (" OFFSET " ++ toString v.offset).data else []

theorem bq_args (v : Visitor α) (base : String) : (BuildQuery v base).2 = v.args := rfl

theorem bq_data (v : Visitor α) (base : String) :
    (BuildQuery v base).1.data
      = base.data ++ wherePartOf v ++ orderPartOf v ++ limitPartOf v ++ offsetPartOf v := by
  unfold BuildQuery wherePartOf orderPartOf limitPartOf offsetPartOf
  by_cases h1 : 0 < v.conditions.length <;>
  by_cases h2 : 0 < v.orderClauses.length <;>
  by_cases h3 : 0 < v.limit <;>
  by_cases h4 : 0 < v.offset <;>
  simp [h1, h2, h3, h4, String.data_append]

/-- Claim C6: with no specification supplied, the visitor accumulates
nothing and BuildQuery returns the base query unchanged with an empty
argument list: no WHERE, ORDER BY, LIMIT, or OFFSET tail is appended. -/
theorem claim_C6 (α : Type) (m : List (String × String)) (base : String) :
    BuildQuery (NewVisitor m : Visitor α) base = (base, []) := rfl

/-- Claim C4: compiling And(Equal(a,1), Or(Equal(b,2), Equal(c,3))) yields
one parenthesized AND-joined top-level group containing the condition on a
and a nested OR-joined group of two independently parenthesized branches,
with markers numbered 1, 2, 3 and arguments in that order. -/
theorem claim_C4 :
    BuildQuery
      (Accept (.And (.cons (.Equal "a" (1 : Int))
        (.cons (.Or (.cons (.Equal "b" 2) (.cons (.Equal "c" 3) .nil))) .nil)))
        (NewVisitor [])) "SELECT * FROM t"
      = ("SELECT * FROM t WHERE (a = $1 AND ((b = $2) OR (c = $3)))", [1, 2, 3]) := rfl

/-- Claim C10: VisitLimit and VisitOffset overwrite the stored value
unconditionally - including with zero - so And(Limit(5), Limit(0)) ends
with a shared child accumulator limit of zero, the positive-propagation
check fails, and the final query has no LIMIT clause at all. -/
theorem claim_C10 :
    (∀ (v : Visitor Int) (n : Int),
      (VisitLimit v n).limit = n ∧ (VisitOffset v n).offset = n)
    ∧ (Accept (.And (.cons (.Limit 5) (.cons (.Limit 0) .nil)))
        (NewVisitor ([] : List (String × String)) : Visitor Int)).limit = 0
    ∧ BuildQuery (Accept (.And (.cons (.Limit 5) (.cons (.Limit 0) .nil)))
        (NewVisitor ([] : List (String × String)) : Visitor Int)) "SELECT * FROM t"
      = ("SELECT * FROM t", []) :=
  ⟨fun v n => ⟨rfl, rfl⟩, rfl, rfl⟩

/-- Claim C9: a storage field containing the generic placeholder character
(here the logical field a? under the identity fallback) is also renumbered
by BuildQuery, so the WHERE clause carries two positional markers for a
single argument and the field text is corrupted to a$1. -/
theorem claim_C9 :
    BuildQuery (Accept (.Equal "a?" (1 : Int)) (NewVisitor [])) "SELECT * FROM t"
      = ("SELECT * FROM t WHERE a$1 = $2", [1])
    ∧ (markersOf (tokenize (joinSep " AND "
        (Accept (.Equal "a?" (1 : Int)) (NewVisitor [] : Visitor Int)).conditions).data
          1)).length = 2
    ∧ (BuildQuery (Accept (.Equal "a?" (1 : Int)) (NewVisitor [] : Visitor Int))
        "SELECT * FROM t").2.length = 1 :=
  ⟨rfl, rfl, rfl⟩

/-- Claim C8: a logical field absent from the translation table passes
through unchanged (identity fallback) in emitted condition fragments and
order clauses; a present field is replaced by its storage name. -/
theorem claim_C8 (α : Type) (m : List (String × String)) (f : String) :
    (m.lookup f = none → lookupField m f = f)
    ∧ (∀ db : String, m.lookup f = some db → lookupField m f = db)
    ∧ (∀ (v : Visitor α) (x : α),
        (VisitEqual v f x).conditions
          = v.conditions ++ [lookupField v.fieldMap f ++ " = ?"])
    ∧ (∀ (v : Visitor α) (d : String),
        (VisitOrder v f d).orderClauses
          = v.orderClauses ++ [lookupField v.fieldMap f ++ " " ++ d]) := by
  refine ⟨?_, ?_, fun v x => rfl, fun v d => rfl⟩
  · intro h
    unfold lookupField
    rw [h]
  · intro db h
    unfold lookupField
    rw [h]

/-- Witness for C8 at a concrete table: the absent field b falls back to
itself, the present field a maps to col_a. -/
theorem claim_C8_witness :
    lookupField [("a", "col_a")] "b" = "b"
      ∧ lookupField [("a", "col_a")] "a" = "col_a" :=
  ⟨(claim_C8 Int [("a", "col_a")] "b").1 rfl,
   (claim_C8 Int [("a", "col_a")] "a").2.1 "col_a" rfl⟩

theorem renumber_prefix_noQ (a b : List Char) (h : countQ a = 0) :
    renumber (a ++ b) 1 = a ++ renumber b 1 := by
  rw [renumber_append, renumber_noQ _ _ h, h]

theorem bq_single (v : Visitor α) (base frag : String)
    (hc : v.conditions = [frag]) (ho : v.orderClauses = [])
    (hl : v.limit = 0) (hoff : v.offset = 0) :
    (BuildQuery v base).1.data
      = base.data ++ (" WHERE " : String).data ++ renumber frag.data 1 := by
  rw [bq_data]
  have hw : wherePartOf v
      = (" WHERE " : String).data ++ renumber (joinSep " AND " [frag]).data 1 := by
    simp [wherePartOf, hc]
  have h2 : orderPartOf v = [] := by simp [orderPartOf, ho]
  have h3 : limitPartOf v = [] := by simp [limitPartOf, hl]
  have h4 : offsetPartOf v = [] := by simp [offsetPartOf, hoff]
  rw [hw, h2, h3, h4]
  have hj : joinSep " AND " [frag] = frag := rfl
  rw [hj]
  simp [List.append_assoc]

/-- Claim C2 (amended): for every field f whose storage name carries no
generic placeholder character, and every value v, compiling Equal(f, v)
alone against the base query yields exactly
"SELECT * FROM t WHERE storage-f = $1" with argument list containing only
that value. -/
theorem claim_C2 (α : Type) (m : List (String × String)) (f : String) (x : α)
    (h : noQ (lookupField m f) = true) :
    (BuildQuery (Accept (.Equal f x) (NewVisitor m : Visitor α)) "SELECT * FROM t").1
      = "SELECT * FROM t WHERE " ++ lookupField m f ++ " = $1"
    ∧ (BuildQuery (Accept (.Equal f x) (NewVisitor m : Visitor α)) "SELECT * FROM t").2
      = [x] := by
  refine ⟨?_, rfl⟩
  apply String.ext
  rw [bq_single _ _ (lookupField m f ++ " = ?") rfl rfl rfl rfl]
  rw [String.data_append, renumber_prefix_noQ _ _ ((noQ_eq _).mp h)]
  have hr : renumber (" = ?" : String).data 1 = (" = $1" : String).data := by decide
  rw [hr, String.data_append, String.data_append]
  have hlit : ("SELECT * FROM t WHERE " : String).data
      = ("SELECT * FROM t" : String).data ++ (" WHERE " : String).data := by decide
  rw [hlit]
  simp [List.append_assoc]

/-- Witness for C2 at a concrete table and value. -/
theorem claim_C2_witness :
    (BuildQuery (Accept (.Equal "Status" (7 : Int))
        (NewVisitor [("Status", "status")] : Visitor Int)) "SELECT * FROM t").1
      = "SELECT * FROM t WHERE " ++ lookupField [("Status", "status")] "Status" ++ " = $1"
    ∧ (BuildQuery (Accept (.Equal "Status" (7 : Int))
        (NewVisitor [("Status", "status")] : Visitor Int)) "SELECT * FROM t").2 = [7] :=
  claim_C2 Int [("Status", "status")] "Status" 7 (by decide)

/-- Counterexample to C2 as stated: for the field a? (identity fallback)
the renumbering pass corrupts the field text, so the output differs from
the claimed "SELECT * FROM t WHERE a? = $1". -/
theorem claim_C2_cex :
    BuildQuery (Accept (.Equal "a?" (1 : Int)) (NewVisitor [])) "SELECT * FROM t"
      ≠ ("SELECT * FROM t WHERE " ++ lookupField [] "a?" ++ " = $1", [(1 : Int)]) := by
  decide

/-- Claim C5 (amended): In with zero values emits the unconditionally
false fragment 1=0, which carries no placeholder and adds no arguments;
for every field whose storage name carries no generic placeholder
character, In(f, a, b, c) compiles to "storage-f IN ($1, $2, $3)" with
arguments a, b, c in placeholder order. -/
theorem claim_C5 (α : Type) (m : List (String × String)) (f : String) :
    (Accept (.In f ([] : List α)) (NewVisitor m : Visitor α)).conditions = ["1=0"]
    ∧ (Accept (.In f ([] : List α)) (NewVisitor m : Visitor α)).args = []
    ∧ countQ ("1=0" : String).data = 0
    ∧ (∀ a b c : α, noQ (lookupField m f) = true →
        (BuildQuery (Accept (.In f [a, b, c]) (NewVisitor m : Visitor α))
            "SELECT * FROM t").1
          = "SELECT * FROM t WHERE " ++ lookupField m f ++ " IN ($1, $2, $3)"
        ∧ (BuildQuery (Accept (.In f [a, b, c]) (NewVisitor m : Visitor α))
            "SELECT * FROM t").2 = [a, b, c]) := by
  refine ⟨rfl, rfl, by decide, ?_⟩
  intro a b c h
  refine ⟨?_, rfl⟩
  apply String.ext
  have hfrag : (Accept (.In f [a, b, c]) (NewVisitor m : Visitor α)).conditions
      = [lookupField m f ++ " IN ("
          ++ joinSep ", " (([a, b, c] : List α).map (fun _ => "?")) ++ ")"] := rfl
  rw [bq_single _ _ _ hfrag rfl rfl rfl]
  have hd : (lookupField m f ++ " IN ("
      ++ joinSep ", " (([a, b, c] : List α).map (fun _ => "?")) ++ ")").data
      = (lookupField m f).data ++ (" IN (?, ?, ?)" : String).data := by
    rw [String.data_append, String.data_append, String.data_append]
    simp only [List.append_assoc]
    congr 1
  rw [hd, renumber_prefix_noQ _ _ ((noQ_eq _).mp h)]
  have hr : renumber (" IN (?, ?, ?)" : String).data 1
      = (" IN ($1, $2, $3)" : String).data := by decide
  rw [hr, String.data_append, String.data_append]
  have hlit : ("SELECT * FROM t WHERE " : String).data
      = ("SELECT * FROM t" : String).data ++ (" WHERE " : String).data := by decide
  rw [hlit]
  simp [List.append_assoc]

/-- Witness for C5 at a concrete table and values. -/
theorem claim_C5_witness :
    (Accept (.In "Status" ([] : List Int))
        (NewVisitor [("Status", "status")] : Visitor Int)).conditions = ["1=0"]
    ∧ (BuildQuery (Accept (.In "Status" [(1 : Int), 2, 3])
        (NewVisitor [("Status", "status")] : Visitor Int)) "SELECT * FROM t").1
      = "SELECT * FROM t WHERE " ++ lookupField [("Status", "status")] "Status"
          ++ " IN ($1, $2, $3)" :=
  ⟨(claim_C5 Int [("Status", "status")] "Status").1,
   ((claim_C5 Int [("Status", "status")] "Status").2.2.2 1 2 3 (by decide)).1⟩

/-- Counterexample to C5 as stated: for the field a? (identity fallback)
the renumbering shifts every IN marker by one and corrupts the field,
producing a$1 IN ($2, $3, $4) instead of the claimed fragment. -/
theorem claim_C5_cex :
    BuildQuery (Accept (.In "a?" [(1 : Int), 2, 3]) (NewVisitor [])) "SELECT * FROM t"
      ≠ ("SELECT * FROM t WHERE " ++ lookupField [] "a?" ++ " IN ($1, $2, $3)",
          [(1 : Int), 2, 3]) := by
  decide

/-- Claim C3: a Limit(10) nested in an And with no limit at the parent
gives final limit 10 (and a LIMIT 10 tail); an outer Limit(5) followed by
an And containing Limit(20) gives final limit 20 (later nested strictly
positive value wins); and a nested accumulator whose limit or offset is
not strictly positive never clears a value already set in the parent,
while a strictly positive nested value always overrides it. -/
theorem claim_C3 :
    BuildQuery (Accept (.And (.cons (.Equal "a" (1 : Int)) (.cons (.Limit 10) .nil)))
        (NewVisitor [])) "SELECT * FROM t"
      = ("SELECT * FROM t WHERE (a = $1) LIMIT 10", [1])
    ∧ (Accept (.And (.cons (.Limit 20) .nil))
        (Accept (.Limit 5) (NewVisitor ([] : List (String × String)) : Visitor Int))).limit
      = 20
    ∧ (∀ (α : Type) (v : Visitor α) (specs : SpecList α),
        ((acceptList specs (NewVisitor v.fieldMap : Visitor α)).limit ≤ 0 →
          (VisitAnd v specs).limit = v.limit)
        ∧ ((acceptList specs (NewVisitor v.fieldMap : Visitor α)).offset ≤ 0 →
          (VisitAnd v specs).offset = v.offset)
        ∧ (0 < (acceptList specs (NewVisitor v.fieldMap : Visitor α)).limit →
          (VisitAnd v specs).limit
            = (acceptList specs (NewVisitor v.fieldMap : Visitor α)).limit)
        ∧ (0 < (acceptList specs (NewVisitor v.fieldMap : Visitor α)).offset →
          (VisitAnd v specs).offset
            = (acceptList specs (NewVisitor v.fieldMap : Visitor α)).offset)) := by
  refine ⟨rfl, rfl, ?_⟩
  intro β v specs
  refine ⟨?_, ?_, ?_, ?_⟩
  · intro h
    show (if 0 < (acceptList specs (NewVisitor v.fieldMap : Visitor β)).limit
      then (acceptList specs (NewVisitor v.fieldMap : Visitor β)).limit
      else v.limit) = v.limit
    rw [if_neg (by omega)]
  · intro h
    show (if 0 < (acceptList specs (NewVisitor v.fieldMap : Visitor β)).offset
      then (acceptList specs (NewVisitor v.fieldMap : Visitor β)).offset
      else v.offset) = v.offset
    rw [if_neg (by omega)]
  · intro h
    show (if 0 < (acceptList specs (NewVisitor v.fieldMap : Visitor β)).limit
      then (acceptList specs (NewVisitor v.fieldMap : Visitor β)).limit
      else v.limit) = _
    rw [if_pos h]
  · intro h
    show (if 0 < (acceptList specs (NewVisitor v.fieldMap : Visitor β)).offset
      then (acceptList specs (NewVisitor v.fieldMap : Visitor β)).offset
      else v.offset) = _
    rw [if_pos h]

/-- Witness for C3: a nested zero limit leaves a parent limit of 7 alone,
and a nested positive limit of 4 overrides it. -/
theorem claim_C3_witness :
    (VisitAnd
        { conditions := [], args := ([] : List Int), fieldMap := [],
          orderClauses := [], limit := 7, offset := 3 }
        (.cons (.Limit 0) .nil)).limit = 7
    ∧ (VisitAnd
        { conditions := [], args := ([] : List Int), fieldMap := [],
          orderClauses := [], limit := 7, offset := 3 }
        (.cons (.Limit 4) .nil)).limit = 4 :=
  ⟨(claim_C3.2.2 Int
      { conditions := [], args := [], fieldMap := [],
        orderClauses := [], limit := 7, offset := 3 }
      (.cons (.Limit 0) .nil)).1 (by decide),
   (claim_C3.2.2 Int
      { conditions := [], args := [], fieldMap := [],
        orderClauses := [], limit := 7, offset := 3 }
      (.cons (.Limit 4) .nil)).2.2.1 (by decide)⟩

/-- Claim C7: VisitOrder appends exactly one clause with the direction
token passed through verbatim; nested And/Or sub-accumulators append
their order clauses to the parent's list rather than replacing it; and
when clauses exist BuildQuery appends ORDER BY with the clauses
comma-joined in accumulation order. -/
theorem claim_C7 :
    (∀ (α : Type) (v : Visitor α) (f d : String),
        (VisitOrder v f d).orderClauses
          = v.orderClauses ++ [mapField v f ++ " " ++ d])
    ∧ (∀ (α : Type) (v : Visitor α) (specs : SpecList α),
        (VisitAnd v specs).orderClauses
          = v.orderClauses
              ++ (acceptList specs (NewVisitor v.fieldMap : Visitor α)).orderClauses
        ∧ (VisitOr v specs).orderClauses
          = v.orderClauses
              ++ (orLoop specs (NewVisitor v.fieldMap : Visitor α) []).1.orderClauses)
    ∧ (∀ (α : Type) (v : Visitor α) (base : String),
        0 < v.orderClauses.length →
          ∃ pre post, (BuildQuery v base).1.data
            = pre ++ (" ORDER BY " : String).data
                ++ (joinSep ", " v.orderClauses).data ++ post) := by
  refine ⟨fun γ v f d => rfl, fun γ v specs => ⟨rfl, rfl⟩, ?_⟩
  intro γ v base h
  refine ⟨base.data ++ wherePartOf v, limitPartOf v ++ offsetPartOf v, ?_⟩
  rw [bq_data]
  have ho : orderPartOf v
      = (" ORDER BY " : String).data ++ (joinSep ", " v.orderClauses).data := by
    simp [orderPartOf, h, String.data_append]
  rw [ho]
  simp [List.append_assoc]

/-- Witness for C7: a visitor holding one order clause produces a query
whose text contains the ORDER BY tail. -/
theorem claim_C7_witness :
    ∃ pre post,
      (BuildQuery
          { conditions := [], args := ([] : List Int), fieldMap := [],
            orderClauses := ["status ASC"], limit := 0, offset := 0 }
        "SELECT * FROM t").1.data
        = pre ++ (" ORDER BY " : String).data
            ++ (joinSep ", " ["status ASC"]).data ++ post :=
  claim_C7.2.2 Int
    { conditions := [], args := [], fieldMap := [],
      orderClauses := ["status ASC"], limit := 0, offset := 0 }
    "SELECT * FROM t" (by decide)

/-- Claim C1 (amended): for every tree all of whose condition-emitting
fields translate to storage names free of the generic placeholder
character, compiling with a fresh visitor and assembling with BuildQuery
gives an argument list whose length is the number of value-producing leaf
payloads, the WHERE text tokenizes to positional markers numbered 1..n in
left-to-right order (so marker k corresponds to argument k), and when
conditions exist the assembled query is the base query, the WHERE keyword,
the rendering of that token stream, and the optional tails. -/
theorem claim_C1 (α : Type) (m : List (String × String)) (s : Specification α)
    (base : String) (hf : fieldsOk m s = true) :
    (BuildQuery (Accept s (NewVisitor m : Visitor α)) base).2.length = valueLeaves s
    ∧ markersOf (tokenize (joinSep " AND "
        (Accept s (NewVisitor m : Visitor α)).conditions).data 1)
      = List.range' 1 (valueLeaves s)
    ∧ (0 < (Accept s (NewVisitor m : Visitor α)).conditions.length →
        (BuildQuery (Accept s (NewVisitor m : Visitor α)) base).1.data
          = base.data ++ (" WHERE " : String).data
              ++ renderToks (tokenize (joinSep " AND "
                  (Accept s (NewVisitor m : Visitor α)).conditions).data 1)
              ++ orderPartOf (Accept s (NewVisitor m : Visitor α))
              ++ limitPartOf (Accept s (NewVisitor m : Visitor α))
              ++ offsetPartOf (Accept s (NewVisitor m : Visitor α))) := by
  have hi := Accept_inv s (NewVisitor m : Visitor α) hf rfl
  have hargs : (Accept s (NewVisitor m : Visitor α)).args.length = valueLeaves s := by
    have h := hi.2.1
    simpa [NewVisitor] using h
  have hcq : condsQ (Accept s (NewVisitor m : Visitor α)) = valueLeaves s := by
    rw [hi.1, hargs]
  refine ⟨?_, ?_, ?_⟩
  · rw [bq_args]
    exact hargs
  · rw [tokenize_markers, joinSep_countQ _ _ (by decide), ← condsQ_eq, hcq]
  · intro h
    rw [bq_data]
    have hw : wherePartOf (Accept s (NewVisitor m : Visitor α))
        = (" WHERE " : String).data
            ++ renumber (joinSep " AND "
                (Accept s (NewVisitor m : Visitor α)).conditions).data 1 := by
      simp [wherePartOf, h]
    rw [hw, renumber_tokens]
    simp [List.append_assoc]

/-- Witness for C1 at a concrete tree mixing And, Equal and In under a
partial field table. -/
theorem claim_C1_witness :
    (BuildQuery (Accept
        (.And (.cons (.Equal "a" (1 : Int)) (.cons (.In "b" [2, 3]) .nil)))
        (NewVisitor [("a", "col_a")] : Visitor Int)) "SELECT * FROM t").2.length
      = valueLeaves (Specification.And (.cons (.Equal "a" (1 : Int))
          (.cons (.In "b" [2, 3]) .nil)))
    ∧ markersOf (tokenize (joinSep " AND "
        (Accept (.And (.cons (.Equal "a" (1 : Int)) (.cons (.In "b" [2, 3]) .nil)))
          (NewVisitor [("a", "col_a")] : Visitor Int)).conditions).data 1)
      = List.range' 1 (valueLeaves (Specification.And (.cons (.Equal "a" (1 : Int))
          (.cons (.In "b" [2, 3]) .nil))))
    ∧ (BuildQuery (Accept
        (.And (.cons (.Equal "a" (1 : Int)) (.cons (.In "b" [2, 3]) .nil)))
        (NewVisitor [("a", "col_a")] : Visitor Int)) "SELECT * FROM t").1.data
      = ("SELECT * FROM t" : String).data ++ (" WHERE " : String).data
          ++ renderToks (tokenize (joinSep " AND "
              (Accept (.And (.cons (.Equal "a" (1 : Int))
                (.cons (.In "b" [2, 3]) .nil)))
                (NewVisitor [("a", "col_a")] : Visitor Int)).conditions).data 1)
          ++ orderPartOf (Accept (.And (.cons (.Equal "a" (1 : Int))
              (.cons (.In "b" [2, 3]) .nil)))
              (NewVisitor [("a", "col_a")] : Visitor Int))
          ++ limitPartOf (Accept (.And (.cons (.Equal "a" (1 : Int))
              (.cons (.In "b" [2, 3]) .nil)))
              (NewVisitor [("a", "col_a")] : Visitor Int))
          ++ offsetPartOf (Accept (.And (.cons (.Equal "a" (1 : Int))
              (.cons (.In "b" [2, 3]) .nil)))
              (NewVisitor [("a", "col_a")] : Visitor Int)) :=
  ⟨(claim_C1 Int [("a", "col_a")]
      (.And (.cons (.Equal "a" (1 : Int)) (.cons (.In "b" [2, 3]) .nil)))
      "SELECT * FROM t" (by decide)).1,
   (claim_C1 Int [("a", "col_a")]
      (.And (.cons (.Equal "a" (1 : Int)) (.cons (.In "b" [2, 3]) .nil)))
      "SELECT * FROM t" (by decide)).2.1,
   (claim_C1 Int [("a", "col_a")]
      (.And (.cons (.Equal "a" (1 : Int)) (.cons (.In "b" [2, 3]) .nil)))
      "SELECT * FROM t" (by decide)).2.2 (by decide)⟩

/-- Counterexample to C1 as stated: for the single node Equal(a?, 1) under
the identity fallback, the assembled WHERE clause holds two positional
markers while the tree has one value-producing leaf and one argument, so
the claimed count equality fails. -/
theorem claim_C1_cex :
    (markersOf (tokenize (joinSep " AND "
        (Accept (.Equal "a?" (1 : Int)) (NewVisitor [] : Visitor Int)).conditions).data
          1)).length = 2
    ∧ (BuildQuery (Accept (.Equal "a?" (1 : Int)) (NewVisitor [] : Visitor Int))
        "SELECT * FROM t").2.length = 1
    ∧ valueLeaves (Specification.Equal "a?" (1 : Int)) = 1
    ∧ ¬ ((markersOf (tokenize (joinSep " AND "
          (Accept (.Equal "a?" (1 : Int)) (NewVisitor [] : Visitor Int)).conditions).data
            1)).length
        = valueLeaves (Specification.Equal "a?" (1 : Int))) := by
  refine ⟨rfl, rfl, rfl, ?_⟩
  decide
